import Mathlib

/-!
Verification of the botcrew orchestrator control plane.

This file is a shallow embedding of the parts of the botcrew source that the
verified properties talk about:

* `src/botcrew/services/message_service.py` (message persistence, read
  cursors, unread enumeration),
* `src/botcrew/api/v1/channels/router.py` (the mark-read HTTP endpoint),
* `src/botcrew/services/agent_service.py` (agent update and delete),
* `src/botcrew/services/channel_service.py` (DM channel lookup-or-create),
* `src/botcrew/services/communication.py` (@mention routing and instant-reply
  dispatch),
* `src/botcrew/services/reconciliation.py` (recovery backoff),
* `src/botcrew/tasks/messaging.py` (Celery task options),
* `src/botcrew/schemas/agent.py` (heartbeat interval bounds).

Conventions of the embedding: database ids, user identifiers and timestamps
are opaque naturals; SQL result sets are Lists in row order; Python `None`
becomes `Option.none`; Python truthiness of optional ids is `Option.isSome`
(the empty-string corner never occurs in the verified properties); raised
exceptions become `Except.error`.
-/

namespace Botcrew

/-! ## Message service (`message_service.py`) -/

/-- A row of the `messages` table: only the columns the unread logic reads
(`id`, `channel_id`, `created_at`). `created_at` is the creation instant. -/
structure Message where
  id : Nat
  channelId : Nat
  createdAt : Nat
deriving Repr, DecidableEq

/-- A row of the `read_cursors` table. -/
structure ReadCursor where
  channelId : Nat
  agentId : Option Nat
  userIdentifier : Option Nat
  lastReadMessageId : Option Nat
  lastReadAt : Option Nat
deriving Repr, DecidableEq

/-- The slice of database state the message service touches. -/
structure MsgStore where
  messages : List Message
  cursors : List ReadCursor
deriving Repr, DecidableEq

/-- The cursor-selection condition built in `update_read_cursor` and
`_get_read_cursor`: channel must match, and if `agent_id` is truthy the
agent id must match, otherwise the user identifier must match. -/
def cursorMatches (channelId : Nat) (agentId userIdentifier : Option Nat)
    (c : ReadCursor) : Bool :=
  c.channelId == channelId &&
    (match agentId with
     | some a => c.agentId == some a
     | none => c.userIdentifier == userIdentifier)

/-- `MessageService._get_read_cursor`: first row matching the condition. -/
def getReadCursor (st : MsgStore) (channelId : Nat)
    (agentId userIdentifier : Option Nat) : Option ReadCursor :=
  (st.cursors.filter (cursorMatches channelId agentId userIdentifier)).head?

/-- Update the first list element satisfying `p` (the SQLAlchemy object
mutation of the row returned by `.first()`). -/
def updateFirstCursor (p : ReadCursor → Bool) (f : ReadCursor → ReadCursor) :
    List ReadCursor → List ReadCursor
  | [] => []
  | c :: cs => if p c then f c :: cs else c :: updateFirstCursor p f cs

/-- `MessageService.update_read_cursor`: upsert of the read cursor.  If a
matching row exists its `last_read_message_id` and `last_read_at` are
overwritten, otherwise a new row is inserted.  `now` is the wall-clock
instant `datetime.now(timezone.utc)` at which the update runs. -/
def updateReadCursor (st : MsgStore) (channelId lastReadMessageId : Nat)
    (agentId userIdentifier : Option Nat) (now : Nat) : ReadCursor × MsgStore :=
  let p := cursorMatches channelId agentId userIdentifier
  let f : ReadCursor → ReadCursor := fun c =>
    { c with lastReadMessageId := some lastReadMessageId, lastReadAt := some now }
  match (st.cursors.filter p).head? with
  | some c => (f c, { st with cursors := updateFirstCursor p f st.cursors })
  | none =>
      let c : ReadCursor :=
        ⟨channelId, agentId, userIdentifier, some lastReadMessageId, some now⟩
      (c, { st with cursors := st.cursors ++ [c] })

/-- The unread predicate shared by `get_unread_count` and
`get_unread_messages`: message is in the channel and, when a cursor with a
non-null `last_read_at` exists, was created strictly after `last_read_at`. -/
def unreadFilter (channelId : Nat) (rc : Option ReadCursor) (m : Message) : Bool :=
  m.channelId == channelId &&
    (match rc with
     | some c =>
         match c.lastReadAt with
         | some t => decide (t < m.createdAt)
         | none => true
     | none => true)

/-- `MessageService.get_unread_count`. -/
def getUnreadCount (st : MsgStore) (channelId : Nat)
    (agentId userIdentifier : Option Nat) : Nat :=
  let rc := getReadCursor st channelId agentId userIdentifier
  (st.messages.filter (unreadFilter channelId rc)).length

/-- Insertion preserving ascending `created_at` order (the `ORDER BY
created_at ASC` of `get_unread_messages`; order among equal instants is not
fixed by the query, insertion sort picks one). -/
def insertByCreatedAt (m : Message) : List Message → List Message
  | [] => [m]
  | x :: xs =>
      if m.createdAt ≤ x.createdAt then m :: x :: xs
      else x :: insertByCreatedAt m xs

/-- Sort messages by ascending creation instant. -/
def sortByCreatedAt : List Message → List Message
  | [] => []
  | x :: xs => insertByCreatedAt x (sortByCreatedAt xs)

/-- `MessageService.get_unread_messages`: same predicate as the count, rows
ordered by ascending creation instant. -/
def getUnreadMessages (st : MsgStore) (channelId : Nat)
    (agentId userIdentifier : Option Nat) : List Message :=
  let rc := getReadCursor st channelId agentId userIdentifier
  sortByCreatedAt (st.messages.filter (unreadFilter channelId rc))

/-- The `mark_messages_read` HTTP endpoint in `channels/router.py`: rejects
the request with a 422 only when neither identifier is supplied, then calls
the service upsert with whatever combination was given. -/
def markMessagesRead (st : MsgStore) (channelId lastReadMessageId : Nat)
    (agentId userIdentifier : Option Nat) (now : Nat) :
    Except String (ReadCursor × MsgStore) :=
  if agentId.isNone && userIdentifier.isNone then
    .error "One of agent_id or user_identifier query params is required"
  else
    .ok (updateReadCursor st channelId lastReadMessageId agentId userIdentifier now)

/-! ## Lemmas about the read-cursor upsert -/

/-- The freshly built cursor of the insert branch satisfies the selection
condition it was built from. -/
theorem cursorMatches_new (ch mid now : Nat) (aid uid : Option Nat) :
    cursorMatches ch aid uid ⟨ch, aid, uid, some mid, some now⟩ = true := by
  cases aid <;> simp [cursorMatches]

/-- Updating the first match of `p` with a `p`-preserving function keeps it
the first match. -/
theorem updateFirstCursor_find (p : ReadCursor → Bool)
    (f : ReadCursor → ReadCursor) (hpf : ∀ c, p (f c) = p c) :
    ∀ (l : List ReadCursor) (c : ReadCursor), l.find? p = some c →
      (updateFirstCursor p f l).find? p = some (f c) := by
  intro l
  induction l with
  | nil => intro c h; simp at h
  | cons x xs ih =>
      intro c h
      by_cases hx : p x
      · rw [List.find?_cons_of_pos _ hx] at h
        cases h
        have hfx : p (f x) = true := (hpf x).trans hx
        simp [updateFirstCursor, hx, List.find?_cons_of_pos _ hfx]
      · rw [List.find?_cons_of_neg _ hx] at h
        simp [updateFirstCursor, hx, List.find?_cons_of_neg _ hx, ih c h]

/-- The row the upsert touches does not change its identity columns, so the
condition still selects it. -/
theorem cursorMatches_overwrite (ch mid now : Nat) (aid uid : Option Nat)
    (c : ReadCursor) :
    cursorMatches ch aid uid
        { c with lastReadMessageId := some mid, lastReadAt := some now }
      = cursorMatches ch aid uid c := by
  cases aid <;> simp [cursorMatches]

/-- After `update_read_cursor`, `_get_read_cursor` with the same identity
returns exactly the row the upsert produced. -/
theorem getReadCursor_updateReadCursor (st : MsgStore) (ch mid now : Nat)
    (aid uid : Option Nat) :
    getReadCursor (updateReadCursor st ch mid aid uid now).2 ch aid uid
      = some ((updateReadCursor st ch mid aid uid now).1) := by
  unfold updateReadCursor getReadCursor
  simp only [List.filter_head?]
  cases hh : st.cursors.find? (cursorMatches ch aid uid) with
  | none =>
      simp [hh, List.find?_append, cursorMatches_new]
  | some c =>
      simpa [hh] using
        updateFirstCursor_find (cursorMatches ch aid uid) _
          (cursorMatches_overwrite ch mid now aid uid) st.cursors c hh

/-- The row returned by the upsert records the requested message id and the
wall-clock instant of the update, in both branches. -/
theorem updateReadCursor_fst (st : MsgStore) (ch mid now : Nat)
    (aid uid : Option Nat) :
    (updateReadCursor st ch mid aid uid now).1.lastReadMessageId = some mid ∧
      (updateReadCursor st ch mid aid uid now).1.lastReadAt = some now := by
  unfold updateReadCursor
  simp only [List.filter_head?]
  cases hh : st.cursors.find? (cursorMatches ch aid uid) <;> simp [hh]

/-! ## Claim theorems: read cursors and unread enumeration -/

/-- C1 counterexample.  Channel 1 holds messages m1..m5 with creation
instants 1..5; agent 7 has no cursor and then calls
`update_read_cursor(channel, m3)`.  The update runs at a wall-clock instant
later than every stored message (instant 10), as in any execution of the
scenario, and because `last_read_at` records that update instant rather than
m3's creation instant, `unread_count` is 0 and `unread_messages` is `[]` —
not 2 and [m4, m5] as the claim states. -/
theorem C1_counterexample :
    getUnreadCount
        (updateReadCursor
          (MsgStore.mk [⟨1, 1, 1⟩, ⟨2, 1, 2⟩, ⟨3, 1, 3⟩, ⟨4, 1, 4⟩, ⟨5, 1, 5⟩] [])
          1 3 (some 7) none 10).2
        1 (some 7) none = 0 ∧
      getUnreadMessages
        (updateReadCursor
          (MsgStore.mk [⟨1, 1, 1⟩, ⟨2, 1, 2⟩, ⟨3, 1, 3⟩, ⟨4, 1, 4⟩, ⟨5, 1, 5⟩] [])
          1 3 (some 7) none 10).2
        1 (some 7) none = [] := by decide

/-- C1 (amended).  `unread_count` returns the number of messages in the
channel created strictly after the cursor's `last_read_at`, and the count of
all messages in the channel when no cursor row matches; `last_read_at` is the
wall-clock instant at which `update_read_cursor` ran, not a message creation
instant.  In the m1..m5 scenario the count is 5 with no cursor, and after
`update_read_cursor(channel, m3, x)` it is 0; the values 2 and [m4, m5]
arise only when m4 and m5 are created after the cursor update. -/
theorem C1_unread_semantics (st : MsgStore) (ch : Nat) (aid uid : Option Nat) :
    (getReadCursor st ch aid uid = none →
      getUnreadCount st ch aid uid
        = (st.messages.filter (fun m => m.channelId == ch)).length) ∧
    (∀ c t, getReadCursor st ch aid uid = some c → c.lastReadAt = some t →
      getUnreadCount st ch aid uid
        = (st.messages.filter
            (fun m => m.channelId == ch && decide (t < m.createdAt))).length) ∧
    (getUnreadCount
        (MsgStore.mk [⟨1, 1, 1⟩, ⟨2, 1, 2⟩, ⟨3, 1, 3⟩, ⟨4, 1, 4⟩, ⟨5, 1, 5⟩] [])
        1 (some 7) none = 5) ∧
    (getUnreadCount
        (MsgStore.mk
          ((updateReadCursor (MsgStore.mk [⟨1, 1, 1⟩, ⟨2, 1, 2⟩, ⟨3, 1, 3⟩] [])
              1 3 (some 7) none 4).2.messages ++ [⟨4, 1, 5⟩, ⟨5, 1, 6⟩])
          (updateReadCursor (MsgStore.mk [⟨1, 1, 1⟩, ⟨2, 1, 2⟩, ⟨3, 1, 3⟩] [])
              1 3 (some 7) none 4).2.cursors)
        1 (some 7) none = 2 ∧
      getUnreadMessages
        (MsgStore.mk
          ((updateReadCursor (MsgStore.mk [⟨1, 1, 1⟩, ⟨2, 1, 2⟩, ⟨3, 1, 3⟩] [])
              1 3 (some 7) none 4).2.messages ++ [⟨4, 1, 5⟩, ⟨5, 1, 6⟩])
          (updateReadCursor (MsgStore.mk [⟨1, 1, 1⟩, ⟨2, 1, 2⟩, ⟨3, 1, 3⟩] [])
              1 3 (some 7) none 4).2.cursors)
        1 (some 7) none = [⟨4, 1, 5⟩, ⟨5, 1, 6⟩]) := by
  refine ⟨?_, ?_, by decide, by decide⟩
  · intro h
    simp only [getUnreadCount, h]
    congr 1
    apply List.filter_congr
    intro m _
    simp [unreadFilter]
  · intro c t hc ht
    simp only [getUnreadCount, hc]
    congr 1
    apply List.filter_congr
    intro m _
    simp [unreadFilter, ht]

/-- Closed witness for `C1_unread_semantics`, discharging its conditional
parts at a one-message store with no cursor and at a store whose cursor has
`last_read_at = 2`. -/
theorem C1_unread_semantics_witness :
    getUnreadCount (MsgStore.mk [⟨1, 1, 1⟩] []) 1 (some 7) none = 1 ∧
      getUnreadCount
        (MsgStore.mk [⟨1, 1, 1⟩, ⟨2, 1, 3⟩] [⟨1, some 7, none, some 1, some 2⟩])
        1 (some 7) none = 1 := by
  constructor
  · have h := (C1_unread_semantics (MsgStore.mk [⟨1, 1, 1⟩] []) 1 (some 7) none).1
      (by decide)
    simpa using h
  · have h :=
      (C1_unread_semantics
        (MsgStore.mk [⟨1, 1, 1⟩, ⟨2, 1, 3⟩] [⟨1, some 7, none, some 1, some 2⟩])
        1 (some 7) none).2.1
        ⟨1, some 7, none, some 1, some 2⟩ 2 (by decide) (by decide)
    simpa using h

/-- C2 counterexample.  In channel 1 with messages m1 (instant 1) and m3
(instant 3), agent 7 first marks m3 read, then marks the older m1 read.  The
stored cursor afterwards records m1, not m3: the upsert is last-write-wins
and the cursor moved backward. -/
theorem C2_counterexample :
    getReadCursor
        (updateReadCursor
          (updateReadCursor (MsgStore.mk [⟨1, 1, 1⟩, ⟨3, 1, 3⟩] [])
            1 3 (some 7) none 10).2
          1 1 (some 7) none 11).2
        1 (some 7) none = some ⟨1, some 7, none, some 1, some 11⟩ ∧
      (getReadCursor
        (updateReadCursor
          (updateReadCursor (MsgStore.mk [⟨1, 1, 1⟩, ⟨3, 1, 3⟩] [])
            1 3 (some 7) none 10).2
          1 1 (some 7) none 11).2
        1 (some 7) none).map (fun c => c.lastReadMessageId) ≠ some (some 3) := by
  decide

/-- C2 (amended).  The read-cursor upsert is unconditional last-write-wins:
after `update_read_cursor(ch, m)` followed by `update_read_cursor(ch, m2)`
— even when m2 is older than m in creation order — the stored cursor equals
m2 and its `last_read_at` is the instant of the second update.  Cursors can
therefore move backward. -/
theorem C2_cursor_last_write_wins (st : MsgStore) (ch m1 m2 now1 now2 : Nat)
    (aid uid : Option Nat) :
    (getReadCursor
        (updateReadCursor (updateReadCursor st ch m1 aid uid now1).2
          ch m2 aid uid now2).2
        ch aid uid).map (fun c => (c.lastReadMessageId, c.lastReadAt))
      = some (some m2, some now2) := by
  rw [getReadCursor_updateReadCursor]
  have h := updateReadCursor_fst (updateReadCursor st ch m1 aid uid now1).2
    ch m2 now2 aid uid
  simp [h.1, h.2]

/-- C6 counterexample.  A mark-read call supplying BOTH the agent identifier
and the human identifier is not rejected: it returns the upserted cursor
(which stores both identifiers) and changes the stored cursors. -/
theorem C6_counterexample :
    markMessagesRead (MsgStore.mk [] []) 1 5 (some 7) (some 9) 10
      = .ok (⟨1, some 7, some 9, some 5, some 10⟩,
             MsgStore.mk [] [⟨1, some 7, some 9, some 5, some 10⟩]) := rfl

/-- C6 (amended).  The service function itself performs no identifier
validation; the mark-read HTTP endpoint rejects only a call supplying
neither identifier (422, no cursor written).  A call supplying both
identifiers is accepted and upserted, the agent identifier taking precedence
in the cursor lookup (the lookup ignores the human identifier whenever an
agent identifier is present). -/
theorem C6_mark_read_validation (st : MsgStore) (ch mid now : Nat)
    (aid uid : Option Nat) :
    (markMessagesRead st ch mid none none now
        = .error "One of agent_id or user_identifier query params is required") ∧
    (aid.isSome = true ∨ uid.isSome = true →
      markMessagesRead st ch mid aid uid now
        = .ok (updateReadCursor st ch mid aid uid now)) ∧
    (∀ (x : Nat) (u1 u2 : Option Nat),
      getReadCursor st ch (some x) u1 = getReadCursor st ch (some x) u2) := by
  refine ⟨by simp [markMessagesRead], ?_, ?_⟩
  · intro h
    have : (aid.isNone && uid.isNone) = false := by
      rcases h with h | h <;> cases aid <;> cases uid <;> simp_all
    simp [markMessagesRead, this]
  · intro x u1 u2
    rfl

/-- Closed witness for `C6_mark_read_validation` at a concrete store,
discharging the some-identifier hypothesis. -/
theorem C6_mark_read_validation_witness :
    markMessagesRead (MsgStore.mk [] []) 2 4 (some 8) none 20
      = .ok (updateReadCursor (MsgStore.mk [] []) 2 4 (some 8) none 20) :=
  (C6_mark_read_validation (MsgStore.mk [] []) 2 4 20 (some 8) none).2.1
    (Or.inl rfl)

/-! ## Agent deletion (`agent_service.py` / `pod_manager.py`) -/

/-- A row of the `agents` table: only the columns `delete_agent` reads. -/
structure AgentRow where
  id : Nat
  status : String
  podName : Option String
deriving Repr, DecidableEq

/-- The desired state (agent rows) and the actual state (the set of live
worker pods, as `PodManager.list_agent_pods` would report it). -/
structure ClusterState where
  agents : List AgentRow
  pods : List String
deriving Repr, DecidableEq

/-- `PodManager.list_agent_pods`: every live worker pod. -/
def listAllPods (w : ClusterState) : List String := w.pods

/-- `AgentService.delete_agent`.  `terminateOk = false` models the pod
deletion raising (any `Exception`): the code logs it and proceeds.  Order in
the code: set status `terminating` and commit, attempt the pod delete, then
delete the row. -/
def deleteAgent (w : ClusterState) (agentId : Nat) (terminateOk : Bool) :
    Except String ClusterState :=
  match w.agents.find? (fun a => a.id == agentId) with
  | none => .error "Agent not found"
  | some a =>
      let w1 : ClusterState :=
        { w with agents := w.agents.map (fun x =>
            if x.id == agentId then { x with status := "terminating" } else x) }
      let w2 : ClusterState :=
        match a.podName with
        | some p => if terminateOk then { w1 with pods := w1.pods.erase p } else w1
        | none => w1
      .ok { w2 with agents := w2.agents.filter (fun x => x.id != agentId) }

/-- C3.  Failing input: one agent (id 1, status running, pod "agent-1") whose
pod is live, and a pod-runtime terminate call that raises.  `delete_agent`
swallows the exception and still deletes the row, so afterwards the agent is
gone from the database while `list_all` still returns its worker — the
worker is orphaned and nothing will ever terminate it (the Reconciler only
looks at rows that still exist).  This contradicts the claim and the code's
own comment that a pod is never orphaned. -/
theorem C3_delete_orphans_on_terminate_failure :
    deleteAgent (ClusterState.mk [⟨1, "running", some "agent-1"⟩] ["agent-1"])
        1 false
      = .ok (ClusterState.mk [] ["agent-1"]) ∧
    listAllPods (ClusterState.mk [] ["agent-1"]) = ["agent-1"] := ⟨rfl, rfl⟩

/-! ## Delivery-queue task options (`tasks/messaging.py`) -/

/-- The Celery task decorator options that configure retry behaviour. -/
structure CeleryTaskOptions where
  maxRetries : Nat
  defaultRetryDelay : Nat
  retryBackoff : Bool
  retryBackoffMax : Option Nat
  acksLate : Bool
deriving Repr, DecidableEq

/-- Decorator options of `deliver_dm_to_agent`. -/
def deliverDmToAgentOptions : CeleryTaskOptions :=
  { maxRetries := 3, defaultRetryDelay := 5, retryBackoff := true,
    retryBackoffMax := some 60, acksLate := true }

/-- Decorator options of `evaluate_instant_reply`. -/
def evaluateInstantReplyOptions : CeleryTaskOptions :=
  { maxRetries := 1, defaultRetryDelay := 3, retryBackoff := false,
    retryBackoffMax := none, acksLate := true }

/-- The retry policy the claim asserts for both jobs: max 3 retries,
exponential backoff from a 5-second base capped at 60 seconds, late ack. -/
def hasClaimedRetryPolicy (o : CeleryTaskOptions) : Bool :=
  o.maxRetries == 3 && o.defaultRetryDelay == 5 && o.retryBackoff &&
    o.retryBackoffMax == some 60 && o.acksLate

/-- C4 counterexample: the relevance-evaluation job is NOT configured with
the claimed policy (it has max 1 retry, a fixed 3-second delay and no
exponential backoff). -/
theorem C4_counterexample :
    hasClaimedRetryPolicy evaluateInstantReplyOptions = false := by decide

/-- C4 (amended).  Only the DM delivery job carries the claimed policy
(max 3 retries, exponential backoff base 5 s capped at 60 s, late ack); the
relevance-evaluation job is configured with max 1 retry, a fixed 3-second
retry delay, no exponential backoff, and late ack.  Both jobs are enqueued
fire-and-forget (`.delay`), so a permanent failure is never surfaced to the
caller. -/
theorem C4_task_retry_options :
    hasClaimedRetryPolicy deliverDmToAgentOptions = true ∧
    evaluateInstantReplyOptions.maxRetries = 1 ∧
    evaluateInstantReplyOptions.defaultRetryDelay = 3 ∧
    evaluateInstantReplyOptions.retryBackoff = false ∧
    evaluateInstantReplyOptions.retryBackoffMax = none ∧
    evaluateInstantReplyOptions.acksLate = true := by decide

/-! ## Heartbeat interval bounds (`schemas/agent.py`) -/

/-- The pydantic `Field(ge=10, le=86400)` constraint on
`heartbeat_interval_seconds` in `CreateAgentRequest`: the value is accepted
iff it lies in [10, 86400]. -/
def createHeartbeatIntervalAccepted (v : Int) : Bool := 10 ≤ v && v ≤ 86400

/-- The identical `Field(ge=10, le=86400)` constraint in
`UpdateAgentRequest`. -/
def updateHeartbeatIntervalAccepted (v : Int) : Bool := 10 ≤ v && v ≤ 86400

/-- C5 counterexample: 100 seconds is outside the claimed range [300, 86400]
yet both the create schema and the update schema accept it. -/
theorem C5_counterexample :
    createHeartbeatIntervalAccepted 100 = true ∧
    updateHeartbeatIntervalAccepted 100 = true ∧
    ¬ ((300 : Int) ≤ 100) := by decide

/-- C5 (amended).  Both schemas bound the heartbeat period to [10, 86400]:
a value outside [10, 86400] is rejected with a validation error and every
value inside it — in particular every value in [300, 86400] — is
accepted. -/
theorem C5_heartbeat_bounds (v : Int) :
    (createHeartbeatIntervalAccepted v = true ↔ 10 ≤ v ∧ v ≤ 86400) ∧
    (updateHeartbeatIntervalAccepted v = true ↔ 10 ≤ v ∧ v ≤ 86400) ∧
    (300 ≤ v → v ≤ 86400 → createHeartbeatIntervalAccepted v = true ∧
      updateHeartbeatIntervalAccepted v = true) := by
  refine ⟨?_, ?_, ?_⟩
  · simp [createHeartbeatIntervalAccepted]
  · simp [updateHeartbeatIntervalAccepted]
  · intro h1 h2
    constructor <;> simp [createHeartbeatIntervalAccepted,
      updateHeartbeatIntervalAccepted] <;> omega

/-- Closed witness for `C5_heartbeat_bounds`, discharging its hypotheses at
the in-range value 300. -/
theorem C5_heartbeat_bounds_witness :
    createHeartbeatIntervalAccepted 300 = true ∧
    updateHeartbeatIntervalAccepted 300 = true :=
  (C5_heartbeat_bounds 300).2.2 (by decide) (by decide)

/-! ## Reconciler recovery backoff (`reconciliation.py`) -/

/-- `_MAX_IMMEDIATE_RETRIES`. -/
def maxImmediateRetries : Nat := 5

/-- `_BACKOFF_BASE_SECONDS`. -/
def backoffBaseSeconds : Nat := 10

/-- `_BACKOFF_MAX_SECONDS`. -/
def backoffMaxSeconds : Nat := 600

/-- The backoff computed in `_attempt_recovery` once the failure count has
reached the immediate-retry limit. -/
def recoveryBackoff (failureCount : Nat) : Nat :=
  min (backoffBaseSeconds * 2 ^ (failureCount - maxImmediateRetries))
    backoffMaxSeconds

/-- Result of one `_attempt_recovery` call for one agent. -/
inductive RecoveryOutcome where
  | skipped
  | recovered (podName : String)
  | failed (newFailureCount : Nat) (newLastAttempt : Nat)
deriving Repr, DecidableEq

/-- `ReconciliationLoop._attempt_recovery` for a single agent.
`failureCount` and `lastAttempt` are the in-memory per-agent entries (both
default to 0 when absent); `now` is `time.monotonic()`; `launchResult` is
`some podName` when `create_agent_pod` succeeds and `none` when it raises.
The `try/except` around the launch is embedded in the totality of the
function: a failed launch produces `.failed` (failure count incremented,
last-attempt instant set, status reverted to error) instead of an escaping
exception, and `_run_loop` additionally wraps every cycle in a catch-all, so
the loop never crashes. -/
def attemptRecovery (failureCount lastAttempt now : Nat)
    (launchResult : Option String) : RecoveryOutcome :=
  if maxImmediateRetries ≤ failureCount ∧
      now - lastAttempt < recoveryBackoff failureCount then
    .skipped
  else
    match launchResult with
    | some podName => .recovered podName
    | none => .failed (failureCount + 1) now

/-- C8.  With failure count at least 5 the tick is skipped whenever the time
since the last attempt is below min(10·2^(count−5), 600) seconds; with
failure count below 5 recovery is always attempted; a failed launch yields a
`.failed` outcome recording count+1 and the current instant (never an
escaping exception). -/
theorem C8_recovery_backoff (fc la now : Nat) (launch : Option String) :
    (5 ≤ fc → now - la < min (10 * 2 ^ (fc - 5)) 600 →
      attemptRecovery fc la now launch = .skipped) ∧
    (fc < 5 → attemptRecovery fc la now launch ≠ .skipped) ∧
    (¬ (5 ≤ fc ∧ now - la < recoveryBackoff fc) → launch = none →
      attemptRecovery fc la now launch = .failed (fc + 1) now) := by
  refine ⟨?_, ?_, ?_⟩
  · intro h1 h2
    simp only [attemptRecovery, recoveryBackoff, maxImmediateRetries,
      backoffBaseSeconds, backoffMaxSeconds]
    rw [if_pos ⟨h1, h2⟩]
  · intro h1
    have hcond : ¬ (maxImmediateRetries ≤ fc ∧
        now - la < recoveryBackoff fc) := by
      simp only [maxImmediateRetries]
      omega
    simp only [attemptRecovery, if_neg hcond]
    cases launch <;> simp
  · intro h1 h2
    have hcond : ¬ (maxImmediateRetries ≤ fc ∧
        now - la < recoveryBackoff fc) := h1
    simp [attemptRecovery, if_neg hcond, h2]

/-- Closed witness for `C8_recovery_backoff`: failure count 7, last attempt
at instant 100, now 110 — the backoff is min(10·2², 600) = 40 and only 10
seconds elapsed, so the tick is skipped; and at failure count 2 a failed
launch at instant 110 yields `.failed 3 110`. -/
theorem C8_recovery_backoff_witness :
    attemptRecovery 7 100 110 none = .skipped ∧
    attemptRecovery 2 100 110 none ≠ .skipped ∧
    attemptRecovery 2 100 110 none = .failed 3 110 := by
  refine ⟨?_, ?_, ?_⟩
  · exact (C8_recovery_backoff 7 100 110 none).1 (by decide) (by decide)
  · exact (C8_recovery_backoff 2 100 110 none).2.1 (by decide)
  · exact (C8_recovery_backoff 2 100 110 none).2.2 (by decide) rfl

/-! ## Agent update (`agent_service.py` update_agent) -/

/-- The updatable columns of an agent row (the fields `UpdateAgentRequest`
exposes; none of them is nullable in the database). -/
structure AgentRecord where
  name : String
  identity : String
  personality : String
  heartbeatPrompt : String
  heartbeatIntervalSeconds : Nat
  heartbeatEnabled : Bool
  modelProvider : String
  modelName : String
deriving Repr, DecidableEq

/-- The kwargs `update_agent` receives from the PATCH handler
(`body.model_dump(exclude_unset=True)`): each field either absent/None or a
replacement value. -/
structure AgentUpdateRequest where
  name : Option String := none
  identity : Option String := none
  personality : Option String := none
  heartbeatPrompt : Option String := none
  heartbeatIntervalSeconds : Option Nat := none
  heartbeatEnabled : Option Bool := none
  modelProvider : Option String := none
  modelName : Option String := none
deriving Repr, DecidableEq

/-- `validate_provider_configured`: the provider must be in the registry and
its env key, when it has one, must map to a non-empty secret.  `registry`
maps provider name to optional env key (`PROVIDER_REGISTRY`, where ollama
has `env_key = None`). -/
def validateProviderConfigured (registry : List (String × Option String))
    (provider : String) (secrets : List (String × String)) : Bool :=
  match (registry.find? (fun e => e.1 == provider)).map (fun e => e.2) with
  | none => false
  | some none => true
  | some (some envKey) =>
      match secrets.find? (fun s => s.1 == envKey) with
      | some s => s.2 != ""
      | none => false

/-- `PROVIDER_REGISTRY` restricted to what validation reads: provider name
and env key. -/
def providerRegistry : List (String × Option String) :=
  [("openai", some "OPENAI_API_KEY"),
   ("anthropic", some "ANTHROPIC_API_KEY"),
   ("ollama", none),
   ("glm", some "GLM_API_KEY")]

/-- `AgentService.update_agent`: when the provider or model name is changing
the (possibly new) provider must be configured, then every non-None kwarg is
applied with `setattr`; None and absent fields are left untouched. -/
def updateAgent (agent : AgentRecord) (u : AgentUpdateRequest)
    (secrets : List (String × String)) : Except String AgentRecord :=
  let provider := u.modelProvider.getD agent.modelProvider
  if (u.modelProvider.isSome || u.modelName.isSome) &&
      !(validateProviderConfigured providerRegistry provider secrets) then
    .error "Provider is not configured"
  else
    .ok { name := u.name.getD agent.name,
          identity := u.identity.getD agent.identity,
          personality := u.personality.getD agent.personality,
          heartbeatPrompt := u.heartbeatPrompt.getD agent.heartbeatPrompt,
          heartbeatIntervalSeconds :=
            u.heartbeatIntervalSeconds.getD agent.heartbeatIntervalSeconds,
          heartbeatEnabled := u.heartbeatEnabled.getD agent.heartbeatEnabled,
          modelProvider := u.modelProvider.getD agent.modelProvider,
          modelName := u.modelName.getD agent.modelName }

/-- C10.  When an update succeeds, every field of the result is the supplied
value when one was given and the previous value otherwise: a field passed as
None (or omitted) keeps its previous value, so no field can be cleared
through update. -/
theorem C10_update_frame (agent a2 : AgentRecord) (u : AgentUpdateRequest)
    (secrets : List (String × String))
    (hok : updateAgent agent u secrets = .ok a2) :
    a2.name = u.name.getD agent.name ∧
    a2.identity = u.identity.getD agent.identity ∧
    a2.personality = u.personality.getD agent.personality ∧
    a2.heartbeatPrompt = u.heartbeatPrompt.getD agent.heartbeatPrompt ∧
    a2.heartbeatIntervalSeconds
      = u.heartbeatIntervalSeconds.getD agent.heartbeatIntervalSeconds ∧
    a2.heartbeatEnabled = u.heartbeatEnabled.getD agent.heartbeatEnabled ∧
    a2.modelProvider = u.modelProvider.getD agent.modelProvider ∧
    a2.modelName = u.modelName.getD agent.modelName := by
  unfold updateAgent at hok
  by_cases hcond : ((u.modelProvider.isSome || u.modelName.isSome) &&
      !(validateProviderConfigured providerRegistry
          (u.modelProvider.getD agent.modelProvider) secrets)) = true
  · rw [if_pos hcond] at hok
    cases hok
  · rw [if_neg hcond] at hok
    cases hok
    exact ⟨rfl, rfl, rfl, rfl, rfl, rfl, rfl, rfl⟩

/-- Closed witness for `C10_update_frame`: updating only the personality of
a concrete agent leaves the other seven fields untouched. -/
theorem C10_update_frame_witness :
    (AgentRecord.mk "Ada" "id" "new" "hb" 300 true "anthropic" "m").name
        = (Option.none).getD (AgentRecord.mk "Ada" "id" "p" "hb" 300 true
            "anthropic" "m").name ∧
      (AgentRecord.mk "Ada" "id" "new" "hb" 300 true "anthropic" "m").identity
        = (Option.none).getD "id" ∧
      (AgentRecord.mk "Ada" "id" "new" "hb" 300 true "anthropic" "m").personality
        = (Option.some "new").getD "p" := by
  have h := C10_update_frame
    (AgentRecord.mk "Ada" "id" "p" "hb" 300 true "anthropic" "m")
    (AgentRecord.mk "Ada" "id" "new" "hb" 300 true "anthropic" "m")
    { personality := some "new" } [] rfl
  exact ⟨h.1, h.2.1, h.2.2.1⟩

/-! ## Mention routing (`communication.py`) -/

/-- The character class of the mention pattern `@([\w-]+)`: ASCII word
characters and the hyphen (agent names are ASCII; Python's `\w` is wider
only for non-ASCII text). -/
def isMentionChar (c : Char) : Bool :=
  c.isAlpha || c.isDigit || c == '_' || c == '-'

/-- `re.findall` of `_MENTION_PATTERN` over the content: left-to-right,
non-overlapping, each match is the maximal run of word/hyphen characters
after an `@`, and the captured group excludes the `@`.  The fuel argument is
an upper bound on the recursion depth — every recursive call consumes at
least one character, so with fuel = length of the input (as `findMentions`
supplies) the zero-fuel case is unreachable. -/
def mentionScanAux : Nat → List Char → List String
  | _, [] => []
  | 0, _ :: _ => []
  | fuel + 1, c :: cs =>
      if c == '@' then
        let tok := cs.takeWhile isMentionChar
        if tok.isEmpty then mentionScanAux fuel cs
        else String.mk tok :: mentionScanAux fuel (cs.dropWhile isMentionChar)
      else mentionScanAux fuel cs

/-- `_MENTION_PATTERN.findall(content)`. -/
def findMentions (content : String) : List String :=
  mentionScanAux content.toList.length content.toList

/-- Python `str.lower()` for the ASCII text of names and tokens. -/
def lowerString (s : String) : String :=
  String.mk (s.toList.map Char.toLower)

/-- `mentioned_names_lower`: the lower-cased mention tokens (the Python set;
membership is what matters). -/
def mentionTokens (content : String) : List String :=
  (findMentions content).map lowerString

/-- Does an agent display name match any mention token under the three
case-insensitive normalizations used in `_handle_mentions`: as-is, spaces
to hyphens, and spaces-and-hyphens to underscores? -/
def agentNameMatchesMentions (tokens : List String) (name : String) : Bool :=
  let nameLower := lowerString name
  let nameUnderscored := String.mk (nameLower.toList.map
    (fun c => if c == ' ' || c == '-' then '_' else c))
  let nameHyphenated := String.mk (nameLower.toList.map
    (fun c => if c == ' ' then '-' else c))
  tokens.contains nameLower || tokens.contains nameUnderscored ||
    tokens.contains nameHyphenated

/-- An agent member of the channel as `_handle_mentions` sees it: its id and
display name. -/
structure ChannelAgent where
  id : Nat
  name : String
deriving Repr, DecidableEq

/-- `CommunicationService._handle_mentions`: one DM delivery job per channel
agent whose name matches a mention token; returns the dispatched agent ids
(in iteration order; the Python set is modelled by the list, which has no
duplicates because each agent row is visited once).  The early returns for
no tokens and no agents are behaviourally the no-match case. -/
def handleMentions (content : String) (channelAgents : List ChannelAgent) :
    List Nat :=
  let tokens := mentionTokens content
  if tokens.isEmpty then []
  else
    (channelAgents.filter
      (fun a => agentNameMatchesMentions tokens a.name)).map (fun a => a.id)

/-- `CommunicationService._handle_instant_replies`: one evaluation job per
channel agent id not excluded (excluded = dispatched via @mention). -/
def handleInstantReplies (channelAgentIds : List Nat) (excluded : List Nat) :
    List Nat :=
  channelAgentIds.filter (fun a => !(excluded.contains a))

/-- The per-recipient jobs a `send_channel_message` call dispatches. -/
structure RoutedJobs where
  dmJobs : List Nat
  evalJobs : List Nat
deriving Repr, DecidableEq

/-- Steps 4 and 5 of `send_channel_message`: route mentions, then — only for
a human sender — enqueue evaluation jobs for every channel agent not already
notified via @mention. -/
def routeChannelMessage (content : String) (channelAgents : List ChannelAgent)
    (senderIsHuman : Bool) : RoutedJobs :=
  let mentioned := handleMentions content channelAgents
  let evals :=
    if senderIsHuman then
      handleInstantReplies (channelAgents.map (fun a => a.id)) mentioned
    else []
  ⟨mentioned, evals⟩

/-- The early-return structure of `_handle_mentions` is equivalent to the
plain filter-and-map. -/
theorem handleMentions_eq (content : String) (l : List ChannelAgent) :
    handleMentions content l
      = (l.filter (fun a =>
          agentNameMatchesMentions (mentionTokens content) a.name)).map
          (fun a => a.id) := by
  unfold handleMentions
  by_cases h : (mentionTokens content).isEmpty
  · have h0 : mentionTokens content = [] := List.isEmpty_iff.mp h
    rw [if_pos h]
    have hfil : l.filter (fun a =>
        agentNameMatchesMentions (mentionTokens content) a.name) = [] := by
      rw [List.filter_eq_nil_iff]
      intro a _
      simp [agentNameMatchesMentions, h0]
    rw [hfil, List.map_nil]
  · rw [if_neg h]

/-- Counting an agent's id in the image of a filtered agent list: with
distinct ids it is 1 when the agent passes the filter and 0 otherwise. -/
theorem count_id_map_filter (p : ChannelAgent → Bool) :
    ∀ (l : List ChannelAgent), (l.map (fun a => a.id)).Nodup →
      ∀ a ∈ l, ((l.filter p).map (fun x => x.id)).count a.id
        = if p a then 1 else 0 := by
  intro l
  induction l with
  | nil => intro _ a ha; cases ha
  | cons x xs ih =>
      intro hnodup a ha
      rw [List.map_cons, List.nodup_cons] at hnodup
      obtain ⟨hx_notin, hnd⟩ := hnodup
      rcases List.mem_cons.mp ha with rfl | hmem
      · have hzero : ((xs.filter p).map (fun y => y.id)).count a.id = 0 := by
          apply List.count_eq_zero_of_not_mem
          intro hmm
          exact hx_notin
            (((List.filter_sublist xs).map (fun y => y.id)).subset hmm)
        by_cases hp : p a
        · rw [List.filter_cons_of_pos hp, List.map_cons,
            List.count_cons_self, hzero, if_pos hp]
        · rw [List.filter_cons_of_neg hp, hzero, if_neg hp]
      · have hne : a.id ≠ x.id := by
          intro he
          exact hx_notin (he ▸ List.mem_map_of_mem (fun y => y.id) hmem)
        by_cases hp : p x
        · rw [List.filter_cons_of_pos hp, List.map_cons,
            List.count_cons_of_ne hne, ih hnd a hmem]
        · rw [List.filter_cons_of_neg hp, ih hnd a hmem]

/-- With distinct ids, an agent's id appears in the image of the filtered
list exactly when the agent itself passes the filter. -/
theorem mem_id_map_filter (p : ChannelAgent → Bool) (l : List ChannelAgent)
    (hnodup : (l.map (fun a => a.id)).Nodup) (a : ChannelAgent) (ha : a ∈ l) :
    a.id ∈ (l.filter p).map (fun x => x.id) ↔ p a = true := by
  constructor
  · intro hmm
    obtain ⟨b, hb, hid⟩ := List.mem_map.mp hmm
    obtain ⟨hbl, hpb⟩ := List.mem_filter.mp hb
    have hba : b = a := List.inj_on_of_nodup_map hnodup hbl ha hid
    exact hba ▸ hpb
  · intro hp
    exact List.mem_map_of_mem (fun x => x.id)
      (List.mem_filter.mpr ⟨ha, hp⟩)

/-- C7.  For a human-sent channel message and a channel whose agent members
have distinct ids (the database uniqueness constraint on
(channel_id, agent_id) plus the primary key): an agent whose name matches a
mention token — under any of the three normalizations, and however many
token variants match it — receives exactly one DM delivery job and no
evaluation job, while every non-matching agent member receives no DM job
and exactly one evaluation job. -/
theorem C7_mention_routing (content : String) (channelAgents : List ChannelAgent)
    (hnodup : (channelAgents.map (fun a => a.id)).Nodup) :
    ∀ a ∈ channelAgents,
      (agentNameMatchesMentions (mentionTokens content) a.name = true →
        (routeChannelMessage content channelAgents true).dmJobs.count a.id = 1 ∧
        a.id ∉ (routeChannelMessage content channelAgents true).evalJobs) ∧
      (agentNameMatchesMentions (mentionTokens content) a.name = false →
        a.id ∉ (routeChannelMessage content channelAgents true).dmJobs ∧
        (routeChannelMessage content channelAgents true).evalJobs.count a.id
          = 1) := by
  intro a ha
  have hdm :
      (routeChannelMessage content channelAgents true).dmJobs
        = (channelAgents.filter (fun x =>
            agentNameMatchesMentions (mentionTokens content) x.name)).map
            (fun x => x.id) := by
    simp [routeChannelMessage, handleMentions_eq]
  have heval :
      (routeChannelMessage content channelAgents true).evalJobs
        = (channelAgents.map (fun x => x.id)).filter
            (fun i => !((routeChannelMessage content channelAgents
                true).dmJobs.contains i)) := by
    simp [routeChannelMessage, handleInstantReplies]
  constructor
  · intro hp
    constructor
    · rw [hdm, count_id_map_filter _ channelAgents hnodup a ha, if_pos hp]
    · intro hmem
      rw [heval] at hmem
      have hq := (List.mem_filter.mp hmem).2
      have hin : a.id ∈ (routeChannelMessage content channelAgents true).dmJobs := by
        rw [hdm]
        exact (mem_id_map_filter _ channelAgents hnodup a ha).mpr hp
      rw [Bool.not_eq_true', ← Bool.not_eq_true] at hq
      exact hq (List.elem_iff.mpr hin)
  · intro hp
    constructor
    · intro hmem
      rw [hdm] at hmem
      have := (mem_id_map_filter _ channelAgents hnodup a ha).mp hmem
      rw [hp] at this
      cases this
    · rw [heval]
      have hnot : a.id ∉ (routeChannelMessage content channelAgents true).dmJobs := by
        rw [hdm]
        intro hmem
        have := (mem_id_map_filter _ channelAgents hnodup a ha).mp hmem
        rw [hp] at this
        cases this
      have hq : (!((routeChannelMessage content channelAgents
          true).dmJobs.contains a.id)) = true := by
        rw [Bool.not_eq_true']
        rw [← Bool.not_eq_true]
        intro hc
        exact hnot (List.elem_iff.mp hc)
      rw [@List.count_filter Nat _ _
        (fun i => !((routeChannelMessage content channelAgents
            true).dmJobs.contains i))
        a.id (channelAgents.map (fun x => x.id)) hq]
      exact List.count_eq_one_of_mem hnodup
        (List.mem_map_of_mem (fun x => x.id) ha)

/-- Closed witness for `C7_mention_routing`: the S2 scenario.  Channel
agents Ada (id 1), Bob-Jr (id 2) and Carol (id 3); a human sends
"Hey @ada and @bob-jr and @bob_jr".  Ada and Bob-Jr each get exactly one DM
job (both Bob variants collapse) and no evaluation job; Carol gets exactly
one evaluation job and no DM job. -/
theorem C7_mention_routing_witness :
    ((routeChannelMessage "Hey @ada and @bob-jr and @bob_jr"
        [⟨1, "Ada"⟩, ⟨2, "Bob-Jr"⟩, ⟨3, "Carol"⟩] true).dmJobs.count 1 = 1 ∧
      1 ∉ (routeChannelMessage "Hey @ada and @bob-jr and @bob_jr"
        [⟨1, "Ada"⟩, ⟨2, "Bob-Jr"⟩, ⟨3, "Carol"⟩] true).evalJobs) ∧
    ((routeChannelMessage "Hey @ada and @bob-jr and @bob_jr"
        [⟨1, "Ada"⟩, ⟨2, "Bob-Jr"⟩, ⟨3, "Carol"⟩] true).dmJobs.count 2 = 1) ∧
    (3 ∉ (routeChannelMessage "Hey @ada and @bob-jr and @bob_jr"
        [⟨1, "Ada"⟩, ⟨2, "Bob-Jr"⟩, ⟨3, "Carol"⟩] true).dmJobs ∧
      (routeChannelMessage "Hey @ada and @bob-jr and @bob_jr"
        [⟨1, "Ada"⟩, ⟨2, "Bob-Jr"⟩, ⟨3, "Carol"⟩] true).evalJobs.count 3 = 1) := by
  have h := C7_mention_routing "Hey @ada and @bob-jr and @bob_jr"
    [⟨1, "Ada"⟩, ⟨2, "Bob-Jr"⟩, ⟨3, "Carol"⟩] (by decide)
  refine ⟨(h ⟨1, "Ada"⟩ (by decide)).1 (by decide), ?_, ?_⟩
  · exact ((h ⟨2, "Bob-Jr"⟩ (by decide)).1 (by decide)).1
  · exact (h ⟨3, "Carol"⟩ (by decide)).2 (by decide)

/-! ## DM channel lookup-or-create (`channel_service.py`) -/

/-- A row of the `channels` table.  The description of a DM channel stores
the agent id (for frontend mapping), modelled as an optional opaque id. -/
structure Channel where
  id : Nat
  name : String
  description : Option Nat
  channelType : String
  creatorUserIdentifier : Option Nat
deriving Repr, DecidableEq

/-- A row of the `channel_members` table. -/
structure ChannelMemberRow where
  channelId : Nat
  agentId : Option Nat
  userIdentifier : Option Nat
deriving Repr, DecidableEq

/-- The slice of database state the channel service touches.  `nextId` models
the fresh-UUID generator: ids already in use are smaller. -/
structure ChannelStore where
  channels : List Channel
  members : List ChannelMemberRow
  nextId : Nat
deriving Repr, DecidableEq

/-- `ChannelService.create_channel`: insert the channel, one member row per
initial agent, and a member row for the creator when one is given. -/
def createChannel (st : ChannelStore) (name : String) (description : Option Nat)
    (channelType : String) (creatorUserIdentifier : Option Nat)
    (agentIds : List Nat) : Channel × ChannelStore :=
  let c : Channel := ⟨st.nextId, name, description, channelType,
    creatorUserIdentifier⟩
  let agentRows := agentIds.map
    (fun a => (⟨st.nextId, some a, none⟩ : ChannelMemberRow))
  let creatorRows : List ChannelMemberRow :=
    match creatorUserIdentifier with
    | some u => [⟨st.nextId, none, some u⟩]
    | none => []
  (c, ⟨st.channels ++ [c], st.members ++ agentRows ++ creatorRows,
    st.nextId + 1⟩)

/-- The lookup condition of `get_or_create_dm_channel`: type `dm` and a
two-way membership intersection — some member row links the agent to the
channel and some member row links the user to it.  Names play no part. -/
def isDmChannelFor (st : ChannelStore) (agentId userIdentifier : Nat)
    (c : Channel) : Bool :=
  c.channelType == "dm" &&
    st.members.any (fun m => m.channelId == c.id && m.agentId == some agentId) &&
    st.members.any (fun m =>
      m.channelId == c.id && m.userIdentifier == some userIdentifier)

/-- `ChannelService.get_or_create_dm_channel`: first channel matching the
two-way intersection, else create a `dm` channel named "DM" with the agent
as initial member and the user as creator. -/
def getOrCreateDmChannel (st : ChannelStore) (agentId userIdentifier : Nat) :
    Channel × ChannelStore :=
  match st.channels.find? (isDmChannelFor st agentId userIdentifier) with
  | some c => (c, st)
  | none =>
      createChannel st "DM" (some agentId) "dm" (some userIdentifier) [agentId]

/-- The agent ids that are members of a channel
(`get_channel_agent_ids`-style projection of the membership table). -/
def agentMembers (st : ChannelStore) (channelId : Nat) : List Nat :=
  st.members.filterMap
    (fun m => if m.channelId == channelId then m.agentId else none)

/-- The human identifiers that are members of a channel. -/
def humanMembers (st : ChannelStore) (channelId : Nat) : List Nat :=
  st.members.filterMap
    (fun m => if m.channelId == channelId then m.userIdentifier else none)

/-- Freshness of the id generator: every stored id is below `nextId`. -/
def chanFreshIds (st : ChannelStore) : Prop :=
  (∀ c ∈ st.channels, c.id < st.nextId) ∧
    ∀ m ∈ st.members, m.channelId < st.nextId

/-- State invariant: every `dm` channel has exactly one agent member and
exactly one human member (what `get_or_create_dm_channel` itself always
creates). -/
def dmChannelsPaired (st : ChannelStore) : Prop :=
  ∀ c ∈ st.channels, c.channelType = "dm" →
    (agentMembers st c.id).length = 1 ∧ (humanMembers st c.id).length = 1

/-- Membership in the agent projection comes from a member row. -/
theorem mem_agentMembers (st : ChannelStore) (channelId a : Nat) :
    a ∈ agentMembers st channelId ↔
      ∃ m ∈ st.members, m.channelId = channelId ∧ m.agentId = some a := by
  unfold agentMembers
  rw [List.mem_filterMap]
  constructor
  · rintro ⟨m, hm, hf⟩
    by_cases hc : (m.channelId == channelId) = true
    · exact ⟨m, hm, eq_of_beq hc, by simpa [hc] using hf⟩
    · simp [hc] at hf
  · rintro ⟨m, hm, hc, ha⟩
    exact ⟨m, hm, by simp [hc, ha]⟩

/-- Membership in the human projection comes from a member row. -/
theorem mem_humanMembers (st : ChannelStore) (channelId u : Nat) :
    u ∈ humanMembers st channelId ↔
      ∃ m ∈ st.members, m.channelId = channelId ∧ m.userIdentifier = some u := by
  unfold humanMembers
  rw [List.mem_filterMap]
  constructor
  · rintro ⟨m, hm, hf⟩
    by_cases hc : (m.channelId == channelId) = true
    · exact ⟨m, hm, eq_of_beq hc, by simpa [hc] using hf⟩
    · simp [hc] at hf
  · rintro ⟨m, hm, hc, ha⟩
    exact ⟨m, hm, by simp [hc, ha]⟩

/-- A singleton-by-length list that contains `a` is `[a]`. -/
theorem eq_singleton_of_length_one_of_mem {l : List Nat} {a : Nat}
    (hlen : l.length = 1) (hmem : a ∈ l) : l = [a] := by
  obtain ⟨x, rfl⟩ := List.length_eq_one.mp hlen
  rw [List.mem_singleton.mp hmem]

/-- The membership witnesses packed in a true `isDmChannelFor`. -/
theorem isDmChannelFor_elim {st : ChannelStore} {a h : Nat} {c : Channel}
    (hc : isDmChannelFor st a h c = true) :
    c.channelType = "dm" ∧ a ∈ agentMembers st c.id ∧
      h ∈ humanMembers st c.id := by
  unfold isDmChannelFor at hc
  rw [Bool.and_eq_true, Bool.and_eq_true] at hc
  obtain ⟨⟨htype, hagent⟩, huser⟩ := hc
  refine ⟨eq_of_beq htype, ?_, ?_⟩
  · obtain ⟨m, hm, hmp⟩ := List.any_eq_true.mp hagent
    rw [Bool.and_eq_true] at hmp
    exact (mem_agentMembers st c.id a).mpr
      ⟨m, hm, eq_of_beq hmp.1, eq_of_beq hmp.2⟩
  · obtain ⟨m, hm, hmp⟩ := List.any_eq_true.mp huser
    rw [Bool.and_eq_true] at hmp
    exact (mem_humanMembers st c.id h).mpr
      ⟨m, hm, eq_of_beq hmp.1, eq_of_beq hmp.2⟩

/-- Member rows with a channel id different from `c.id` do not change the
lookup condition: the condition over extended membership equals the one
over the original membership when the new rows belong to another channel. -/
theorem isDmChannelFor_append (st : ChannelStore) (a h : Nat) (c : Channel)
    (rows : List ChannelMemberRow) (nid : Nat)
    (hrows : ∀ r ∈ rows, r.channelId ≠ c.id) :
    isDmChannelFor ⟨st.channels ++ [⟨nid, "DM", some a, "dm", some h⟩],
        st.members ++ rows, st.nextId + 1⟩ a h c
      = isDmChannelFor st a h c := by
  unfold isDmChannelFor
  have hany : ∀ p : ChannelMemberRow → Bool,
      (∀ r ∈ rows, (r.channelId == c.id) = false) →
      (st.members ++ rows).any (fun m => (m.channelId == c.id) && p m)
        = st.members.any (fun m => (m.channelId == c.id) && p m) := by
    intro p hfalse
    rw [List.any_append]
    have : rows.any (fun m => (m.channelId == c.id) && p m) = false := by
      rw [List.any_eq_false]
      intro r hr
      simp [hfalse r hr]
    rw [this, Bool.or_false]
  have hfalse : ∀ r ∈ rows, (r.channelId == c.id) = false := by
    intro r hr
    exact beq_eq_false_iff_ne.mpr (hrows r hr)
  rw [hany _ hfalse, hany _ hfalse]

/-- C9.  In any state with a fresh id generator where every `dm` channel
links exactly one agent and one human (the invariant the operation itself
maintains), `get_or_create_dm_channel(a, h)` returns a channel of type `dm`
whose agent-member set is exactly `[a]` and whose human-member set is exactly
`[h]` — found purely by the two-way membership intersection, never by name —
and a second call with the same `(a, h)` returns the same channel id and
leaves the state unchanged. -/
theorem C9_get_or_create_dm (st : ChannelStore) (a h : Nat)
    (hfresh : chanFreshIds st) (hdm : dmChannelsPaired st) :
    (getOrCreateDmChannel st a h).1.channelType = "dm" ∧
    agentMembers (getOrCreateDmChannel st a h).2
        (getOrCreateDmChannel st a h).1.id = [a] ∧
    humanMembers (getOrCreateDmChannel st a h).2
        (getOrCreateDmChannel st a h).1.id = [h] ∧
    (getOrCreateDmChannel (getOrCreateDmChannel st a h).2 a h).1.id
      = (getOrCreateDmChannel st a h).1.id ∧
    (getOrCreateDmChannel (getOrCreateDmChannel st a h).2 a h).2
      = (getOrCreateDmChannel st a h).2 := by
  cases hfind : st.channels.find? (isDmChannelFor st a h) with
  | some c =>
      have hres : getOrCreateDmChannel st a h = (c, st) := by
        unfold getOrCreateDmChannel
        rw [hfind]
      have hcond := List.find?_some hfind
      have hmem := List.mem_of_find?_eq_some hfind
      obtain ⟨htype, hain, hhin⟩ := isDmChannelFor_elim hcond
      obtain ⟨halen, hhlen⟩ := hdm c hmem htype
      rw [hres]
      refine ⟨htype, eq_singleton_of_length_one_of_mem halen hain,
        eq_singleton_of_length_one_of_mem hhlen hhin, ?_, ?_⟩
      · simp only [getOrCreateDmChannel, hfind]
      · simp only [getOrCreateDmChannel, hfind]
  | none =>
      have hnomatch := List.find?_eq_none.mp hfind
      have hres : getOrCreateDmChannel st a h
          = (⟨st.nextId, "DM", some a, "dm", some h⟩,
             ⟨st.channels ++ [⟨st.nextId, "DM", some a, "dm", some h⟩],
              st.members ++ [⟨st.nextId, some a, none⟩]
                ++ [⟨st.nextId, none, some h⟩],
              st.nextId + 1⟩) := by
        unfold getOrCreateDmChannel
        rw [hfind]
        rfl
      have hold_agent : st.members.filterMap
          (fun m => if m.channelId == st.nextId then m.agentId else none)
            = [] := by
        rw [List.filterMap_eq_nil_iff]
        intro m hm
        have : (m.channelId == st.nextId) = false :=
          beq_eq_false_iff_ne.mpr (Nat.ne_of_lt (hfresh.2 m hm))
        simp [this]
      have hold_human : st.members.filterMap
          (fun m => if m.channelId == st.nextId then m.userIdentifier else none)
            = [] := by
        rw [List.filterMap_eq_nil_iff]
        intro m hm
        have : (m.channelId == st.nextId) = false :=
          beq_eq_false_iff_ne.mpr (Nat.ne_of_lt (hfresh.2 m hm))
        simp [this]
      rw [hres]
      refine ⟨rfl, ?_, ?_, ?_, ?_⟩
      · show List.filterMap
            (fun m : ChannelMemberRow =>
              if m.channelId == st.nextId then m.agentId else none)
            (st.members ++ [(⟨st.nextId, some a, none⟩ : ChannelMemberRow)]
              ++ [(⟨st.nextId, none, some h⟩ : ChannelMemberRow)])
            = [a]
        rw [List.filterMap_append, List.filterMap_append, hold_agent]
        simp
      · show List.filterMap
            (fun m : ChannelMemberRow =>
              if m.channelId == st.nextId then m.userIdentifier else none)
            (st.members ++ [(⟨st.nextId, some a, none⟩ : ChannelMemberRow)]
              ++ [(⟨st.nextId, none, some h⟩ : ChannelMemberRow)])
            = [h]
        rw [List.filterMap_append, List.filterMap_append, hold_human]
        simp
      all_goals
      · have hsecond :
            (st.channels
                ++ [(⟨st.nextId, "DM", some a, "dm", some h⟩ : Channel)]).find?
              (isDmChannelFor
                ⟨st.channels
                    ++ [(⟨st.nextId, "DM", some a, "dm", some h⟩ : Channel)],
                 st.members ++ [(⟨st.nextId, some a, none⟩ : ChannelMemberRow)]
                   ++ [(⟨st.nextId, none, some h⟩ : ChannelMemberRow)],
                 st.nextId + 1⟩ a h)
            = some (⟨st.nextId, "DM", some a, "dm", some h⟩ : Channel) := by
          rw [List.find?_append]
          have hnone : st.channels.find?
              (isDmChannelFor
                ⟨st.channels ++ [⟨st.nextId, "DM", some a, "dm", some h⟩],
                 st.members ++ [⟨st.nextId, some a, none⟩]
                   ++ [⟨st.nextId, none, some h⟩],
                 st.nextId + 1⟩ a h) = none := by
            rw [List.find?_eq_none]
            intro c hc
            have hne : ∀ r ∈ ([⟨st.nextId, some a, none⟩,
                ⟨st.nextId, none, some h⟩] : List ChannelMemberRow),
                r.channelId ≠ c.id := by
              intro r hr he
              have hlt := hfresh.1 c hc
              have hcid : r.channelId = st.nextId := by
                rcases List.mem_cons.mp hr with h1 | h2
                · rw [h1]
                · rcases List.mem_cons.mp h2 with h3 | h4
                  · rw [h3]
                  · cases h4
              omega
            simp only [List.append_assoc, List.singleton_append]
            rw [isDmChannelFor_append st a h c _ st.nextId hne]
            exact hnomatch c hc
          rw [hnone, Option.none_or]
          have hnew : isDmChannelFor
              ⟨st.channels ++ [⟨st.nextId, "DM", some a, "dm", some h⟩],
               st.members ++ [⟨st.nextId, some a, none⟩]
                 ++ [⟨st.nextId, none, some h⟩],
               st.nextId + 1⟩ a h ⟨st.nextId, "DM", some a, "dm", some h⟩
              = true := by
            unfold isDmChannelFor
            simp [List.any_append]
          exact List.find?_cons_of_pos [] hnew
        simp only [getOrCreateDmChannel, hsecond]

/-- Closed witness for `C9_get_or_create_dm` at the empty store with agent 1
and human 2: the first call creates the DM channel and the second call finds
the same one. -/
theorem C9_get_or_create_dm_witness :
    (getOrCreateDmChannel ⟨[], [], 0⟩ 1 2).1.channelType = "dm" ∧
    agentMembers (getOrCreateDmChannel ⟨[], [], 0⟩ 1 2).2
        (getOrCreateDmChannel ⟨[], [], 0⟩ 1 2).1.id = [1] ∧
    humanMembers (getOrCreateDmChannel ⟨[], [], 0⟩ 1 2).2
        (getOrCreateDmChannel ⟨[], [], 0⟩ 1 2).1.id = [2] ∧
    (getOrCreateDmChannel (getOrCreateDmChannel ⟨[], [], 0⟩ 1 2).2 1 2).1.id
      = (getOrCreateDmChannel ⟨[], [], 0⟩ 1 2).1.id ∧
    (getOrCreateDmChannel (getOrCreateDmChannel ⟨[], [], 0⟩ 1 2).2 1 2).2
      = (getOrCreateDmChannel ⟨[], [], 0⟩ 1 2).2 :=
  C9_get_or_create_dm ⟨[], [], 0⟩ 1 2 (by constructor <;> simp)
    (by intro c hc; cases hc)

end Botcrew
